import Mathlib

/-!
Shallow embedding of the progress-computation and quiz-grading core of the
learning-management-system backend, together with theorems settling the
specification claims about it.

Conventions of the embedding:
  machine document identifiers (Mongo ObjectId strings) become Nat;
  JS numbers become rationals; timestamps (new Date()) become a Nat
  parameter named now; nullable values become Option.
-/

/-! ## Data model: courses, modules, lectures, progress records -/

/-- A lecture inside a module; only its identifier matters to the core. -/
structure Lecture where
  id : Nat
deriving Repr, DecidableEq

/-- A module of a course: an identifier and its ordered lectures. -/
structure CourseModule where
  id : Nat
  lectures : List Lecture
deriving Repr, DecidableEq

/-- A course: its ordered modules. -/
structure Course where
  modules : List CourseModule
deriving Repr, DecidableEq

/-- Per-lecture completion state inside a progress record. -/
structure LectureProgress where
  lectureId : Nat
  completed : Bool
  completedAt : Option Nat
deriving Repr, DecidableEq

/-- Per-module completion state inside a progress record. -/
structure ModuleProgress where
  moduleId : Nat
  completed : Bool
  completedAt : Option Nat
  lecturesProgress : List LectureProgress
deriving Repr, DecidableEq

/-- The per-(student, course) progress document (CourseProgress schema). -/
structure Progress where
  userId : Nat
  courseId : Nat
  modulesProgress : List ModuleProgress
  completedLecturesCount : Nat
  totalLecturesCount : Nat
  progressPercentage : Int
  completed : Bool
  completedAt : Option Nat
deriving Repr, DecidableEq

/-- The statistics object returned by calculateProgressStats. -/
structure Stats where
  completedLecturesCount : Nat
  totalLecturesCount : Nat
  progressPercentage : Int
  completed : Bool
  completedAt : Option Nat
deriving Repr, DecidableEq

/-! ## ProgressCalculator -/

/-- Embeds calculateProgressStats (progress routes, lines 20 to 53).  The two
forEach counters become foldl accumulations; JS Math.round x is the Mathlib
round, that is the floor of x + 1/2, which agrees with Math.round on every
rational; the call new Date() becomes the parameter now. -/
def calculateProgressStats (course : Course) (progress : Progress) (now : Nat) : Stats :=
  let totalLectures : Nat := course.modules.foldl (fun acc m => acc + m.lectures.length) 0
  let completedLectures : Nat := progress.modulesProgress.foldl
    (fun acc mp => mp.lecturesProgress.foldl
      (fun a lp => if lp.completed then a + 1 else a) acc) 0
  let progressPercentage : Int :=
    if totalLectures > 0 then
      round (((completedLectures : ℚ) / (totalLectures : ℚ)) * 100)
    else 0
  let courseCompleted := decide (totalLectures > 0) && (completedLectures == totalLectures)
  { completedLecturesCount := completedLectures
    totalLecturesCount := totalLectures
    progressPercentage := progressPercentage
    completed := courseCompleted
    completedAt := if courseCompleted then some now else none }

/-- Embeds initializeProgress (progress routes, lines 62 to 92): the pure
construction of the seeded record; the surrounding persistence (save) is the
responsibility of the storage layer. -/
def initializeProgress (course : Course) (userId courseId : Nat) : Progress :=
  let modulesProgress := course.modules.map (fun m =>
    { moduleId := m.id
      completed := false
      completedAt := none
      lecturesProgress := m.lectures.map (fun lec =>
        { lectureId := lec.id, completed := false, completedAt := none : LectureProgress })
      : ModuleProgress })
  let totalLectures := course.modules.foldl (fun acc m => acc + m.lectures.length) 0
  { userId := userId
    courseId := courseId
    modulesProgress := modulesProgress
    completedLecturesCount := 0
    totalLecturesCount := totalLectures
    progressPercentage := 0
    completed := false
    completedAt := none }

/-! ## The toggle operation -/

/-- Embeds the flip of one lecture-progress entry (toggle route, lines 262
to 263). -/
def flipLP (lp : LectureProgress) (now : Nat) : LectureProgress :=
  let c := !lp.completed
  { lectureId := lp.lectureId, completed := c, completedAt := if c then some now else none }

/-- Embeds lines 246 to 263 of the toggle route: findIndex locates the first
entry with the given lecture id and that entry is flipped in place; when no
entry exists a fresh incomplete one is pushed at the end and then flipped. -/
def toggleLP : List LectureProgress → Nat → Nat → List LectureProgress
  | [], lectureId, now =>
    [flipLP { lectureId := lectureId, completed := false, completedAt := none } now]
  | lp :: rest, lectureId, now =>
    if lp.lectureId = lectureId then flipLP lp now :: rest
    else lp :: toggleLP rest lectureId now

/-- Embeds lines 228 to 237: the module-progress entry freshly created when
the record lacks one, a full incomplete mirror of the module. -/
def freshModuleProgress (moduleId : Nat) (m : CourseModule) : ModuleProgress :=
  { moduleId := moduleId
    completed := false
    completedAt := none
    lecturesProgress := m.lectures.map (fun lec =>
      { lectureId := lec.id, completed := false, completedAt := none : LectureProgress }) }

/-- Embeds lines 261 to 271: toggle the lecture inside one module-progress
entry, then recompute the owning module completion as the conjunction of the
completion flags of the entries present. -/
def updateModuleProgress (mp : ModuleProgress) (lectureId now : Nat) : ModuleProgress :=
  let lps := toggleLP mp.lecturesProgress lectureId now
  let allLecturesCompleted := lps.all (fun lp => lp.completed)
  { moduleId := mp.moduleId
    completed := allLecturesCompleted
    completedAt := if allLecturesCompleted then some now else none
    lecturesProgress := lps }

/-- Embeds lines 222 to 271: locate the first module-progress entry with the
given module id (pushing a fresh mirror of module m when absent) and apply
updateModuleProgress to it. -/
def toggleModulesProgress : List ModuleProgress → CourseModule → Nat → Nat → Nat → List ModuleProgress
  | [], m, moduleId, lectureId, now =>
    [updateModuleProgress (freshModuleProgress moduleId m) lectureId now]
  | mp :: rest, m, moduleId, lectureId, now =>
    if mp.moduleId = moduleId then updateModuleProgress mp lectureId now :: rest
    else mp :: toggleModulesProgress rest m moduleId lectureId now

/-- Embeds the toggle route (lines 155 to 295) acting on an already loaded
progress record: validation that the module belongs to the course and the
lecture to the module (404 responses become none), the toggle itself, and the
overwrite of the cached statistics computed by calculateProgressStats. -/
def toggleLecture (course : Course) (progress : Progress)
    (moduleId lectureId now : Nat) : Option Progress :=
  match course.modules.find? (fun m => m.id == moduleId) with
  | none => none
  | some m =>
    match m.lectures.find? (fun lec => lec.id == lectureId) with
    | none => none
    | some _ =>
      let mps := toggleModulesProgress progress.modulesProgress m moduleId lectureId now
      let p1 := { progress with modulesProgress := mps }
      let stats := calculateProgressStats course p1 now
      some { p1 with
        completedLecturesCount := stats.completedLecturesCount
        totalLecturesCount := stats.totalLecturesCount
        progressPercentage := stats.progressPercentage
        completed := stats.completed
        completedAt := stats.completedAt }

/-! ## QuizGrader -/

/-- The question type enumeration of the Assignment schema. -/
inductive QuestionType
  | multipleChoice
  | written
deriving Repr, DecidableEq

/-- One question of an assignment (Assignment schema, question sub-schema);
points defaults are applied at use sites, mirroring the JS reads. -/
structure Question where
  id : Nat
  type : QuestionType
  correctOption : Option Int
  points : Option ℚ
deriving Repr, DecidableEq

/-- An assignment as consumed by the grader. -/
structure Assignment where
  questions : List Question
  totalPoints : ℚ
deriving Repr, DecidableEq

/-- One submitted answer: the referenced question id and the selected option,
none standing for null or undefined. -/
structure StudentAnswer where
  questionId : Nat
  answer : Option Int
deriving Repr, DecidableEq

/-- One entry of the gradedAnswers list built by autoGradeQuiz. -/
structure GradedAnswer where
  questionId : Nat
  studentAnswer : Option Int
  correctAnswer : Option Int
  isCorrect : Bool
  points : ℚ
  earnedPoints : ℚ
deriving Repr, DecidableEq

/-- The object returned by autoGradeQuiz. -/
structure GradeResult where
  totalPoints : ℚ
  earnedPoints : ℚ
  percentage : ℚ
  gradedAnswers : List GradedAnswer
deriving Repr, DecidableEq

/-- JS expression question.points || 1 (line 522): undefined and 0 are falsy
and yield the default 1. -/
def pointsOf (q : Question) : ℚ :=
  match q.points with
  | none => 1
  | some p => if p = 0 then 1 else p

/-- The Map built on lines 512 to 515 by forEach and set, queried by get: a
later question with a duplicate id overwrites an earlier one. -/
def questionsMapGet (questions : List Question) (questionId : Nat) : Option Question :=
  questions.foldl (fun acc q => if q.id = questionId then some q else acc) none

/-- Lines 526 to 529: an answer is correct when it is neither null nor
undefined and is strictly equal to the stored correctOption. -/
def isCorrectAnswer (q : Question) (sa : StudentAnswer) : Bool :=
  match sa.answer with
  | none => false
  | some v => q.correctOption == some v

/-- The body of the forEach on lines 518 to 544, acting on the accumulator
triple (totalQuestionPoints, earnedQuestionPoints, gradedAnswers). -/
def gradeStep (questions : List Question) (acc : ℚ × ℚ × List GradedAnswer)
    (sa : StudentAnswer) : ℚ × ℚ × List GradedAnswer :=
  match questionsMapGet questions sa.questionId with
  | some q =>
    if q.type = QuestionType.multipleChoice then
      let pointsForQuestion := pointsOf q
      let isCorrect := isCorrectAnswer q sa
      (acc.1 + pointsForQuestion,
       if isCorrect then acc.2.1 + pointsForQuestion else acc.2.1,
       acc.2.2 ++ [{ questionId := sa.questionId
                     studentAnswer := sa.answer
                     correctAnswer := q.correctOption
                     isCorrect := isCorrect
                     points := pointsForQuestion
                     earnedPoints := if isCorrect then pointsForQuestion else 0 }])
    else acc
  | none => acc

/-- The accumulator loop of autoGradeQuiz: totalQuestionPoints,
earnedQuestionPoints and gradedAnswers after all student answers. -/
def gradeRaw (assignment : Assignment) (studentAnswers : List StudentAnswer) :
    ℚ × ℚ × List GradedAnswer :=
  studentAnswers.foldl (gradeStep assignment.questions) (0, 0, [])

/-- Embeds autoGradeQuiz (lines 506 to 562): the accumulator loop followed by
the percentage and the rescaling of earned points to the assignment
totalPoints. -/
def autoGradeQuiz (assignment : Assignment) (studentAnswers : List StudentAnswer) :
    GradeResult :=
  let r := gradeRaw assignment studentAnswers
  let totalQuestionPoints := r.1
  let earnedQuestionPoints := r.2.1
  { totalPoints := assignment.totalPoints
    earnedPoints :=
      if totalQuestionPoints > 0 then
        (earnedQuestionPoints / totalQuestionPoints) * assignment.totalPoints
      else 0
    percentage :=
      if totalQuestionPoints > 0 then
        (earnedQuestionPoints / totalQuestionPoints) * 100
      else 0
    gradedAnswers := r.2.2 }

/-! ## Letter grades and the submission save hook -/

/-- The letter grades of the Submission schema enum; Incomplete appears only
in the enum, never as an output of the mapping. -/
inductive LetterGrade
  | APlus | A | AMinus | BPlus | B | BMinus | CPlus | C | CMinus | DPlus | D | F | Incomplete
deriving Repr, DecidableEq

/-- Embeds getLetterGrade (lines 1227 to 1240) and the identical threshold
chain of the pre-save hook: top-down, first match wins. -/
def getLetterGrade (percentage : ℚ) : LetterGrade :=
  if percentage ≥ 97 then .APlus
  else if percentage ≥ 93 then .A
  else if percentage ≥ 90 then .AMinus
  else if percentage ≥ 87 then .BPlus
  else if percentage ≥ 83 then .B
  else if percentage ≥ 80 then .BMinus
  else if percentage ≥ 77 then .CPlus
  else if percentage ≥ 73 then .C
  else if percentage ≥ 70 then .CMinus
  else if percentage ≥ 67 then .DPlus
  else if percentage ≥ 60 then .D
  else .F

/-- The grade sub-document of a submission. -/
structure Grade where
  points : Option ℚ
  percentage : Option ℚ
  letterGrade : Option LetterGrade
deriving Repr, DecidableEq

/-- The slice of a submission document the letter-grade hook reads and
writes. -/
structure Submission where
  grade : Option Grade
deriving Repr, DecidableEq

/-- Embeds the pre-save hook of the Submission schema (lines 169 to 188):
when the grade exists and its percentage is defined, the letter grade is
overwritten from the percentage; otherwise the document is untouched. -/
def applyLetterGradeHook (s : Submission) : Submission :=
  match s.grade with
  | some g =>
    match g.percentage with
    | some p => { s with grade := some { g with letterGrade := some (getLetterGrade p) } }
    | none => s
  | none => s

/-! ## Specification-side quantities, written from the words of the spec -/

/-- Spec-side total lecture count: the sum of the lecture counts over the
modules of the course. -/
def totalLecturesOf (course : Course) : Nat :=
  (course.modules.map (fun m => m.lectures.length)).sum

/-- How many entries of one lecture-progress list carry completed = true. -/
def countCompletedLP (l : List LectureProgress) : Nat :=
  (l.filter (fun lp => lp.completed)).length

/-- Spec-side completed lecture count: how many lecture-progress entries
present in the record carry completed = true. -/
def completedLecturesOf (progress : Progress) : Nat :=
  (progress.modulesProgress.map (fun mp => countCompletedLP mp.lecturesProgress)).sum

/-- Spec-side contribution of one answer to totalQuestionPoints: the points
of the matched multiple-choice question, 0 for an unmatched or written
one. -/
def answerPoints (questions : List Question) (sa : StudentAnswer) : ℚ :=
  match questionsMapGet questions sa.questionId with
  | some q => if q.type = QuestionType.multipleChoice then pointsOf q else 0
  | none => 0

/-- Spec-side contribution of one answer to earnedQuestionPoints. -/
def answerEarned (questions : List Question) (sa : StudentAnswer) : ℚ :=
  match questionsMapGet questions sa.questionId with
  | some q =>
    if q.type = QuestionType.multipleChoice then
      if isCorrectAnswer q sa then pointsOf q else 0
    else 0
  | none => 0

/-- Spec-side totalQuestionPoints: the sum over the answered multiple-choice
questions of their points. -/
def totalQuestionPoints (assignment : Assignment) (studentAnswers : List StudentAnswer) : ℚ :=
  (studentAnswers.map (answerPoints assignment.questions)).sum

/-- Spec-side earnedQuestionPoints: the sum over the correctly answered
multiple-choice questions of their points. -/
def earnedQuestionPoints (assignment : Assignment) (studentAnswers : List StudentAnswer) : ℚ :=
  (studentAnswers.map (answerEarned assignment.questions)).sum

/-! ## Basic accumulation lemmas -/

lemma foldl_add_of {α : Type} (f : α → Nat) (l : List α) (a : Nat) :
    l.foldl (fun acc x => acc + f x) a = a + (l.map f).sum := by
  induction l generalizing a with
  | nil => simp
  | cons x rest ih => simp [ih, Nat.add_assoc]

lemma foldl_add_lectures (l : List CourseModule) (a : Nat) :
    l.foldl (fun acc m => acc + m.lectures.length) a
      = a + (l.map (fun m => m.lectures.length)).sum :=
  foldl_add_of _ l a

lemma foldl_count_lps (l : List LectureProgress) (a : Nat) :
    l.foldl (fun acc lp => if lp.completed then acc + 1 else acc) a
      = a + countCompletedLP l := by
  induction l generalizing a with
  | nil => simp [countCompletedLP]
  | cons lp rest ih =>
    cases hc : lp.completed <;>
      simp [countCompletedLP, List.filter_cons, hc, ih, Nat.add_assoc, Nat.add_comm 1]

lemma foldl_count_mps (l : List ModuleProgress) (a : Nat) :
    l.foldl (fun acc mp => mp.lecturesProgress.foldl
      (fun b lp => if lp.completed then b + 1 else b) acc) a
      = a + (l.map (fun mp => countCompletedLP mp.lecturesProgress)).sum := by
  simp only [foldl_count_lps]
  exact foldl_add_of _ l a

/-- Normal form of calculateProgressStats, phrased through the spec-side
counters. -/
lemma calculateProgressStats_eq (course : Course) (p : Progress) (now : Nat) :
    calculateProgressStats course p now =
      { completedLecturesCount := completedLecturesOf p
        totalLecturesCount := totalLecturesOf course
        progressPercentage :=
          if totalLecturesOf course > 0 then
            round (((completedLecturesOf p : ℚ) / (totalLecturesOf course : ℚ)) * 100)
          else 0
        completed :=
          decide (totalLecturesOf course > 0)
            && (completedLecturesOf p == totalLecturesOf course)
        completedAt :=
          if decide (totalLecturesOf course > 0)
              && (completedLecturesOf p == totalLecturesOf course)
            then some now else none } := by
  unfold calculateProgressStats totalLecturesOf completedLecturesOf
  simp only [foldl_add_lectures, foldl_count_mps, Nat.zero_add]

/-- C2: calculateProgressStats returns the rounded percentage.  The name
computeStats of the spec is calculateProgressStats in the code. -/
theorem computeStats_percentage_rounded (course : Course) (p : Progress) (now : Nat) :
    (calculateProgressStats course p now).totalLecturesCount = totalLecturesOf course ∧
    (calculateProgressStats course p now).completedLecturesCount = completedLecturesOf p ∧
    (calculateProgressStats course p now).progressPercentage =
      (if totalLecturesOf course = 0 then 0
       else round ((100 : ℚ) * (completedLecturesOf p : ℚ) / (totalLecturesOf course : ℚ))) ∧
    (totalLecturesOf course ≠ 0 →
      (calculateProgressStats course p now).progressPercentage =
        ⌊(100 : ℚ) * (completedLecturesOf p : ℚ) / (totalLecturesOf course : ℚ) + 1 / 2⌋) := by
  rw [calculateProgressStats_eq]
  have hcomm : ((completedLecturesOf p : ℚ) / (totalLecturesOf course : ℚ)) * 100
      = (100 : ℚ) * (completedLecturesOf p : ℚ) / (totalLecturesOf course : ℚ) := by
    ring
  by_cases ht : totalLecturesOf course = 0
  · simp [ht]
  · have hpos : totalLecturesOf course > 0 := Nat.pos_of_ne_zero ht
    refine ⟨rfl, rfl, ?_, ?_⟩
    · simp only [ht, if_false, hpos, if_true, hcomm]
    · intro _
      simp only [hpos, if_true, hcomm, round_eq]

/-- C6 (amended): the completedAt returned by calculateProgressStats is the
current time whenever the computed completed flag is true, regardless of the
prior state of the record, and null otherwise; the function only reads
modulesProgress, so recomputing an already complete record refreshes the
timestamp. -/
theorem computeStats_completedAt_refresh (course : Course) (mps : List ModuleProgress)
    (now u1 c1 n1 t1 u2 c2 n2 t2 : Nat) (pp1 pp2 : Int) (b1 b2 : Bool)
    (ca1 ca2 : Option Nat) :
    (calculateProgressStats course ⟨u1, c1, mps, n1, t1, pp1, b1, ca1⟩ now).completedAt
      = (if (calculateProgressStats course ⟨u1, c1, mps, n1, t1, pp1, b1, ca1⟩ now).completed
         then some now else none) ∧
    calculateProgressStats course ⟨u1, c1, mps, n1, t1, pp1, b1, ca1⟩ now
      = calculateProgressStats course ⟨u2, c2, mps, n2, t2, pp2, b2, ca2⟩ now := by
  constructor
  · rw [calculateProgressStats_eq]
  · rw [calculateProgressStats_eq, calculateProgressStats_eq]
    rfl

/-- A one-module, one-lecture course whose record is already complete. -/
def alreadyCompleteCourse : Course := ⟨[⟨0, [⟨0⟩]⟩]⟩

/-- A progress record already marked complete at time 5. -/
def alreadyCompleteProgress : Progress :=
  ⟨7, 8, [⟨0, true, some 5, [⟨0, true, some 5⟩]⟩], 1, 1, 100, true, some 5⟩

/-- C6 counterexample: the record was complete before the computation, so no
transition happens, yet calculateProgressStats returns the fresh time 99 as
completedAt instead of the null the claim demands. -/
theorem computeStats_completedAt_not_transition :
    alreadyCompleteProgress.completed = true ∧
    alreadyCompleteProgress.completedAt = some 5 ∧
    (calculateProgressStats alreadyCompleteCourse alreadyCompleteProgress 99).completed = true ∧
    (calculateProgressStats alreadyCompleteCourse alreadyCompleteProgress 99).completedAt
      = some 99 := by
  refine ⟨rfl, rfl, by decide, by decide⟩

/-- C9 (amended): initializeProgress seeds a full incomplete mirror of the
course with the derived fields zeroed, except that totalLecturesCount is
seeded with the full lecture count of the course rather than 0. -/
theorem initializeProgress_mirror (course : Course) (userId courseId : Nat) :
    (initializeProgress course userId courseId).userId = userId ∧
    (initializeProgress course userId courseId).courseId = courseId ∧
    List.Forall₂ (fun (m : CourseModule) (mp : ModuleProgress) =>
        mp.moduleId = m.id ∧ mp.completed = false ∧ mp.completedAt = none ∧
        List.Forall₂ (fun (lec : Lecture) (lp : LectureProgress) =>
            lp.lectureId = lec.id ∧ lp.completed = false ∧ lp.completedAt = none)
          m.lectures mp.lecturesProgress)
      course.modules (initializeProgress course userId courseId).modulesProgress ∧
    (initializeProgress course userId courseId).completedLecturesCount = 0 ∧
    (initializeProgress course userId courseId).totalLecturesCount = totalLecturesOf course ∧
    (initializeProgress course userId courseId).progressPercentage = 0 ∧
    (initializeProgress course userId courseId).completed = false ∧
    (initializeProgress course userId courseId).completedAt = none := by
  refine ⟨rfl, rfl, ?_, rfl, ?_, rfl, rfl, rfl⟩
  · show List.Forall₂ _ course.modules (course.modules.map _)
    rw [List.forall₂_map_right_iff]
    refine List.forall₂_same.mpr (fun m _ => ⟨rfl, rfl, rfl, ?_⟩)
    rw [List.forall₂_map_right_iff]
    exact List.forall₂_same.mpr (fun lec _ => ⟨rfl, rfl, rfl⟩)
  · show course.modules.foldl (fun acc m => acc + m.lectures.length) 0 = totalLecturesOf course
    rw [foldl_add_lectures]
    simp [totalLecturesOf]

/-- The course used in the C9 counterexample: one module with one lecture. -/
def oneLectureCourse : Course := ⟨[⟨0, [⟨0⟩]⟩]⟩

/-- C9 counterexample: the seeded record does not have totalLecturesCount
equal to 0; it is seeded with the full lecture count of the course. -/
theorem initializeProgress_total_not_zero :
    (initializeProgress oneLectureCourse 1 2).totalLecturesCount ≠ 0 := by decide

/-! ## Decomposition of the grading loop -/

/-- The gradedAnswers entries one answer contributes: one entry for an
answered multiple-choice question, nothing otherwise. -/
def answerGraded (questions : List Question) (sa : StudentAnswer) : List GradedAnswer :=
  match questionsMapGet questions sa.questionId with
  | some q =>
    if q.type = QuestionType.multipleChoice then
      [{ questionId := sa.questionId
         studentAnswer := sa.answer
         correctAnswer := q.correctOption
         isCorrect := isCorrectAnswer q sa
         points := pointsOf q
         earnedPoints := if isCorrectAnswer q sa then pointsOf q else 0 }]
    else []
  | none => []

lemma gradeStep_split (qs : List Question) (acc : ℚ × ℚ × List GradedAnswer)
    (sa : StudentAnswer) :
    gradeStep qs acc sa =
      (acc.1 + answerPoints qs sa, acc.2.1 + answerEarned qs sa,
       acc.2.2 ++ answerGraded qs sa) := by
  unfold gradeStep answerPoints answerEarned answerGraded
  cases h : questionsMapGet qs sa.questionId with
  | none => simp
  | some q =>
    by_cases ht : q.type = QuestionType.multipleChoice
    · cases hc : isCorrectAnswer q sa <;> simp [ht, hc]
    · simp [ht]

lemma gradeRaw_shift (qs : List Question) :
    ∀ (sas : List StudentAnswer) (acc : ℚ × ℚ × List GradedAnswer),
      sas.foldl (gradeStep qs) acc =
        (acc.1 + (sas.map (answerPoints qs)).sum,
         acc.2.1 + (sas.map (answerEarned qs)).sum,
         acc.2.2 ++ (sas.map (answerGraded qs)).flatten) := by
  intro sas
  induction sas with
  | nil => intro acc; simp
  | cons sa rest ih =>
    intro acc
    simp only [List.foldl_cons, gradeStep_split, ih, List.map_cons, List.sum_cons,
      List.flatten_cons, List.append_assoc, add_assoc]

lemma gradeRaw_eq (a : Assignment) (sas : List StudentAnswer) :
    gradeRaw a sas =
      (totalQuestionPoints a sas, earnedQuestionPoints a sas,
       (sas.map (answerGraded a.questions)).flatten) := by
  unfold gradeRaw totalQuestionPoints earnedQuestionPoints
  rw [gradeRaw_shift]
  simp

lemma questionsMapGet_mem (qs : List Question) (i : Nat) (q : Question)
    (h : questionsMapGet qs i = some q) : q ∈ qs := by
  unfold questionsMapGet at h
  suffices hgen : ∀ (acc : Option Question),
      qs.foldl (fun acc q2 => if q2.id = i then some q2 else acc) acc = some q →
      q ∈ qs ∨ acc = some q by
    rcases hgen none h with h1 | h1
    · exact h1
    · simp at h1
  clear h
  induction qs with
  | nil =>
    intro acc h
    right
    simpa using h
  | cons q0 rest ih =>
    intro acc h
    simp only [List.foldl_cons] at h
    rcases ih _ h with h1 | h1
    · exact Or.inl (List.mem_cons_of_mem _ h1)
    · by_cases h0 : q0.id = i
      · rw [if_pos h0] at h1
        obtain rfl := Option.some.inj h1
        exact Or.inl (List.mem_cons_self _ _)
      · rw [if_neg h0] at h1
        exact Or.inr h1

lemma answerPoints_nonneg (a : Assignment) (sa : StudentAnswer)
    (hpos : ∀ q ∈ a.questions, 0 < pointsOf q) :
    0 ≤ answerPoints a.questions sa := by
  unfold answerPoints
  cases h : questionsMapGet a.questions sa.questionId with
  | none => simp
  | some q =>
    have hq := hpos q (questionsMapGet_mem _ _ _ h)
    by_cases ht : q.type = QuestionType.multipleChoice
    · simpa [ht] using le_of_lt hq
    · simp [ht]

lemma totalQuestionPoints_nonneg (a : Assignment) (sas : List StudentAnswer)
    (hpos : ∀ q ∈ a.questions, 0 < pointsOf q) :
    0 ≤ totalQuestionPoints a sas := by
  refine List.sum_nonneg ?_
  intro x hx
  obtain ⟨sa, _, rfl⟩ := List.mem_map.mp hx
  exact answerPoints_nonneg a sa hpos

/-- C1: autoGradeQuiz returns the rescaled earned points and the percentage
computed from the accumulated question points of the answered multiple-choice
questions, degrading to 0 without fault when no question points accumulate,
and echoes the assignment totalPoints.  The hypothesis is the data-model
invariant that question points are positive. -/
theorem autoGradeQuiz_formulas (a : Assignment) (sas : List StudentAnswer)
    (hpos : ∀ q ∈ a.questions, 0 < pointsOf q) :
    (autoGradeQuiz a sas).totalPoints = a.totalPoints ∧
    (autoGradeQuiz a sas).percentage =
      (if totalQuestionPoints a sas = 0 then 0
       else 100 * earnedQuestionPoints a sas / totalQuestionPoints a sas) ∧
    (autoGradeQuiz a sas).earnedPoints =
      (if totalQuestionPoints a sas = 0 then 0
       else earnedQuestionPoints a sas / totalQuestionPoints a sas * a.totalPoints) ∧
    (totalQuestionPoints a sas = 0 →
      (autoGradeQuiz a sas).earnedPoints = 0 ∧ (autoGradeQuiz a sas).percentage = 0) := by
  have hnn := totalQuestionPoints_nonneg a sas hpos
  by_cases h0 : totalQuestionPoints a sas = 0
  · simp [autoGradeQuiz, gradeRaw_eq, h0]
  · have hgt : 0 < totalQuestionPoints a sas := lt_of_le_of_ne hnn (Ne.symm h0)
    refine ⟨rfl, ?_, ?_, fun hz => absurd hz h0⟩
    · simp only [autoGradeQuiz, gradeRaw_eq, h0, if_false, hgt, if_true]
      ring
    · simp only [autoGradeQuiz, gradeRaw_eq, h0, if_false, hgt, if_true]

/-- A two-question multiple-choice assignment used as concrete input. -/
def quizAssignment : Assignment :=
  ⟨[⟨1, QuestionType.multipleChoice, some 0, some 1⟩,
    ⟨2, QuestionType.multipleChoice, some 1, none⟩], 100⟩

/-- Concrete answers: the first correct, the second wrong. -/
def quizAnswers : List StudentAnswer := [⟨1, some 0⟩, ⟨2, some 0⟩]

/-- Witness for C1 at a concrete assignment and answer list. -/
theorem autoGradeQuiz_formulas_witness :
    (autoGradeQuiz quizAssignment quizAnswers).percentage =
      (if totalQuestionPoints quizAssignment quizAnswers = 0 then 0
       else 100 * earnedQuestionPoints quizAssignment quizAnswers /
            totalQuestionPoints quizAssignment quizAnswers) :=
  (autoGradeQuiz_formulas quizAssignment quizAnswers (by decide)).2.1

/-- C3: an answer whose question id matches no question, or whose matched
question is not multiple-choice, contributes to none of the accumulators and
produces no gradedAnswers entry: deleting it from the answer list leaves the
whole grading result unchanged, and no error is signalled. -/
theorem autoGrade_skips_non_mcq (a : Assignment) (l1 l2 : List StudentAnswer)
    (sa : StudentAnswer)
    (h : questionsMapGet a.questions sa.questionId = none ∨
         ∃ q, questionsMapGet a.questions sa.questionId = some q ∧
              q.type ≠ QuestionType.multipleChoice) :
    autoGradeQuiz a (l1 ++ sa :: l2) = autoGradeQuiz a (l1 ++ l2) ∧
    answerPoints a.questions sa = 0 ∧
    answerEarned a.questions sa = 0 ∧
    answerGraded a.questions sa = [] := by
  have hp : answerPoints a.questions sa = 0 := by
    unfold answerPoints
    rcases h with h | ⟨q, hq, ht⟩
    · simp [h]
    · simp [hq, ht]
  have he : answerEarned a.questions sa = 0 := by
    unfold answerEarned
    rcases h with h | ⟨q, hq, ht⟩
    · simp [h]
    · simp [hq, ht]
  have hg : answerGraded a.questions sa = [] := by
    unfold answerGraded
    rcases h with h | ⟨q, hq, ht⟩
    · simp [h]
    · simp [hq, ht]
  have hraw : gradeRaw a (l1 ++ sa :: l2) = gradeRaw a (l1 ++ l2) := by
    rw [gradeRaw_eq, gradeRaw_eq]
    unfold totalQuestionPoints earnedQuestionPoints
    simp [hp, he, hg]
  refine ⟨?_, hp, he, hg⟩
  unfold autoGradeQuiz
  rw [hraw]

/-- An assignment mixing one multiple-choice and one written question. -/
def mixedAssignment : Assignment :=
  ⟨[⟨1, QuestionType.multipleChoice, some 0, some 1⟩,
    ⟨3, QuestionType.written, none, some 2⟩], 10⟩

/-- Witness for C3: dropping the answer aimed at the written question leaves
the grading result unchanged. -/
theorem autoGrade_skips_non_mcq_witness :
    autoGradeQuiz mixedAssignment ([⟨1, some 0⟩] ++ (⟨3, some 0⟩ : StudentAnswer) :: []) =
      autoGradeQuiz mixedAssignment ([⟨1, some 0⟩] ++ []) :=
  (autoGrade_skips_non_mcq mixedAssignment [⟨1, some 0⟩] [] ⟨3, some 0⟩
    (Or.inr ⟨⟨3, QuestionType.written, none, some 2⟩, by decide, by decide⟩)).1

/-- C10: grading treats every answer entry independently: the accumulators
are additive over any split of the answer list and every single answer
contributes its own points, earned points and graded entry, so duplicate
entries for one question are each counted and graded, never deduplicated. -/
theorem autoGrade_duplicates_independent (a : Assignment) (l1 l2 : List StudentAnswer) :
    (gradeRaw a (l1 ++ l2)).1 = (gradeRaw a l1).1 + (gradeRaw a l2).1 ∧
    (gradeRaw a (l1 ++ l2)).2.1 = (gradeRaw a l1).2.1 + (gradeRaw a l2).2.1 ∧
    (autoGradeQuiz a (l1 ++ l2)).gradedAnswers =
      (autoGradeQuiz a l1).gradedAnswers ++ (autoGradeQuiz a l2).gradedAnswers ∧
    ∀ sa : StudentAnswer, gradeRaw a [sa] =
      (answerPoints a.questions sa, answerEarned a.questions sa,
       answerGraded a.questions sa) := by
  refine ⟨?_, ?_, ?_, ?_⟩
  · simp [gradeRaw_eq, totalQuestionPoints]
  · simp [gradeRaw_eq, earnedQuestionPoints]
  · simp [autoGradeQuiz, gradeRaw_eq]
  · intro sa
    rw [gradeRaw_eq]
    simp [totalQuestionPoints, earnedQuestionPoints]

/-- C4: on save, a submission whose grade percentage is defined has its
letter grade overwritten from the percentage by the fixed top-down threshold
chain; the result never depends on a previously stored letter grade, and the
boundary examples of the claim hold. -/
theorem letterGrade_derived (s : Submission) (g : Grade) (p : ℚ)
    (hg : s.grade = some g) (hp : g.percentage = some p) :
    (applyLetterGradeHook s).grade
      = some { g with letterGrade := some (getLetterGrade p) } ∧
    (∀ lg : Option LetterGrade,
      (applyLetterGradeHook ⟨some { g with letterGrade := lg }⟩).grade
        = (applyLetterGradeHook ⟨some g⟩).grade) ∧
    getLetterGrade (92999 / 1000) = LetterGrade.AMinus ∧
    getLetterGrade 90 = LetterGrade.AMinus ∧
    getLetterGrade (599 / 10) = LetterGrade.F := by
  obtain ⟨sg⟩ := s
  obtain rfl : sg = some g := hg
  obtain ⟨gp, gperc, glg⟩ := g
  obtain rfl : gperc = some p := hp
  refine ⟨?_, ?_, by norm_num [getLetterGrade], by norm_num [getLetterGrade],
    by norm_num [getLetterGrade]⟩
  · simp [applyLetterGradeHook]
  · intro lg
    simp [applyLetterGradeHook]

/-- A submission carrying a percentage of 95 and no letter grade yet. -/
def gradedSubmission : Submission := ⟨some ⟨some 45, some 95, none⟩⟩

/-- Witness for C4 at a concrete submission. -/
theorem letterGrade_derived_witness :
    (applyLetterGradeHook gradedSubmission).grade
      = some { points := some 45, percentage := some 95,
               letterGrade := some (getLetterGrade 95) } :=
  (letterGrade_derived gradedSubmission ⟨some 45, some 95, none⟩ 95 rfl rfl).1

/-! ## Lookup helpers and toggle lemmas -/

/-- First module-progress entry of the record with the given module id, the
entry the route mutates. -/
def findMP (p : Progress) (moduleId : Nat) : Option ModuleProgress :=
  p.modulesProgress.find? (fun mp => mp.moduleId == moduleId)

/-- The lecture-progress entry the route mutates: first matching lecture
entry inside the first matching module entry. -/
def findLP (p : Progress) (moduleId lectureId : Nat) : Option LectureProgress :=
  (findMP p moduleId).bind
    (fun mp => mp.lecturesProgress.find? (fun lp => lp.lectureId == lectureId))

/-- Completed-lecture count of a list of module-progress entries. -/
def countCompletedMPs (l : List ModuleProgress) : Nat :=
  (l.map (fun mp => countCompletedLP mp.lecturesProgress)).sum

lemma completedLecturesOf_eq_count (p : Progress) :
    completedLecturesOf p = countCompletedMPs p.modulesProgress := rfl

lemma countCompletedMPs_cons (mp : ModuleProgress) (l : List ModuleProgress) :
    countCompletedMPs (mp :: l)
      = countCompletedLP mp.lecturesProgress + countCompletedMPs l := by
  simp [countCompletedMPs]

lemma flipLP_lectureId (lp : LectureProgress) (now : Nat) :
    (flipLP lp now).lectureId = lp.lectureId := rfl

lemma updateModuleProgress_moduleId (mp : ModuleProgress) (lid now : Nat) :
    (updateModuleProgress mp lid now).moduleId = mp.moduleId := rfl

lemma freshModuleProgress_moduleId (mid : Nat) (m : CourseModule) :
    (freshModuleProgress mid m).moduleId = mid := rfl

lemma updateModuleProgress_lps (mp : ModuleProgress) (lid now : Nat) :
    (updateModuleProgress mp lid now).lecturesProgress
      = toggleLP mp.lecturesProgress lid now := rfl

lemma find?_toggleLP (l : List LectureProgress) (lid now : Nat) :
    (toggleLP l lid now).find? (fun lp => lp.lectureId == lid) =
      some (flipLP ((l.find? (fun lp => lp.lectureId == lid)).getD
        { lectureId := lid, completed := false, completedAt := none }) now) := by
  induction l with
  | nil => simp [toggleLP, flipLP, List.find?]
  | cons lp rest ih =>
    by_cases hl : lp.lectureId = lid
    · simp [toggleLP, hl, flipLP, List.find?]
    · simp only [toggleLP, if_neg hl]
      rw [List.find?_cons_of_neg, List.find?_cons_of_neg]
      · exact ih
      · simp [hl]
      · simp [hl]

lemma countCompletedLP_toggle_toggle (l : List LectureProgress) (lid now1 now2 : Nat) :
    countCompletedLP (toggleLP (toggleLP l lid now1) lid now2) = countCompletedLP l := by
  induction l with
  | nil => simp [toggleLP, flipLP, countCompletedLP]
  | cons lp rest ih =>
    by_cases hl : lp.lectureId = lid
    · simp only [toggleLP, if_pos hl, flipLP, flipLP_lectureId, Bool.not_not]
      simp [countCompletedLP, List.filter_cons, hl]
      cases hc : lp.completed <;> simp [hc]
    · simp only [toggleLP, if_neg hl]
      rw [countCompletedLP, List.filter_cons, countCompletedLP, List.filter_cons]
      cases hc : lp.completed <;> simp [hc] <;> exact ih

lemma find?_toggleMPs (l : List ModuleProgress) (m : CourseModule) (mid lid now : Nat) :
    (toggleModulesProgress l m mid lid now).find? (fun mp => mp.moduleId == mid) =
      some (updateModuleProgress ((l.find? (fun mp => mp.moduleId == mid)).getD
        (freshModuleProgress mid m)) lid now) := by
  induction l with
  | nil =>
    simp [toggleModulesProgress, List.find?, updateModuleProgress_moduleId,
      freshModuleProgress]
  | cons mp rest ih =>
    by_cases hm : mp.moduleId = mid
    · simp [toggleModulesProgress, hm, List.find?, updateModuleProgress_moduleId]
    · simp only [toggleModulesProgress, if_neg hm]
      rw [List.find?_cons_of_neg, List.find?_cons_of_neg]
      · exact ih
      · simp [hm]
      · simp [hm]

lemma countCompletedLP_fresh (mid : Nat) (m : CourseModule) :
    countCompletedLP (freshModuleProgress mid m).lecturesProgress = 0 := by
  show countCompletedLP (m.lectures.map fun lec =>
    { lectureId := lec.id, completed := false, completedAt := none : LectureProgress }) = 0
  induction m.lectures with
  | nil => rfl
  | cons lec rest ih => simp [countCompletedLP, List.filter_cons]

lemma countCompletedMPs_toggle_toggle (l : List ModuleProgress) (m : CourseModule)
    (mid lid now1 now2 : Nat) :
    countCompletedMPs
        (toggleModulesProgress (toggleModulesProgress l m mid lid now1) m mid lid now2)
      = countCompletedMPs l := by
  induction l with
  | nil =>
    simp only [toggleModulesProgress, updateModuleProgress_moduleId,
      freshModuleProgress_moduleId, eq_self_iff_true, if_true]
    rw [countCompletedMPs_cons, updateModuleProgress_lps, updateModuleProgress_lps,
      countCompletedLP_toggle_toggle, countCompletedLP_fresh]
    rfl
  | cons mp rest ih =>
    by_cases hm : mp.moduleId = mid
    · simp only [toggleModulesProgress, if_pos hm, updateModuleProgress_moduleId]
      rw [countCompletedMPs_cons, countCompletedMPs_cons, updateModuleProgress_lps,
        updateModuleProgress_lps, countCompletedLP_toggle_toggle]
    · simp only [toggleModulesProgress, if_neg hm]
      rw [countCompletedMPs_cons, countCompletedMPs_cons, ih]

lemma toggleLecture_eq_some (course : Course) (p : Progress) (mid lid now : Nat)
    (m : CourseModule) (lec : Lecture)
    (hm : course.modules.find? (fun mo => mo.id == mid) = some m)
    (hlec : m.lectures.find? (fun l2 => l2.id == lid) = some lec) :
    ∃ p1, toggleLecture course p mid lid now = some p1 ∧
      p1.modulesProgress = toggleModulesProgress p.modulesProgress m mid lid now ∧
      p1.completedLecturesCount
        = countCompletedMPs (toggleModulesProgress p.modulesProgress m mid lid now) := by
  simp only [toggleLecture, hm, hlec]
  refine ⟨_, rfl, rfl, ?_⟩
  rw [calculateProgressStats_eq]
  rfl

/-- C7: toggling the same present, currently incomplete lecture twice brings
the stored completedLecturesCount back to its prior value and leaves the
lecture entry incomplete with a null completedAt. -/
theorem toggle_twice_restores (course : Course) (p p1 p2 : Progress)
    (mid lid now1 now2 : Nat) (lp : LectureProgress)
    (h1 : toggleLecture course p mid lid now1 = some p1)
    (h2 : toggleLecture course p1 mid lid now2 = some p2)
    (hlp : findLP p mid lid = some lp)
    (hnc : lp.completed = false)
    (hcount : p.completedLecturesCount = completedLecturesOf p) :
    p2.completedLecturesCount = p.completedLecturesCount ∧
    ∃ lp2, findLP p2 mid lid = some lp2 ∧ lp2.completed = false ∧ lp2.completedAt = none := by
  cases hm : course.modules.find? (fun mo => mo.id == mid) with
  | none => simp [toggleLecture, hm] at h1
  | some m =>
    cases hlec : m.lectures.find? (fun l2 => l2.id == lid) with
    | none => simp [toggleLecture, hm, hlec] at h1
    | some lec =>
      obtain ⟨mp0, hfm, hflp⟩ : ∃ mp0,
          p.modulesProgress.find? (fun mp => mp.moduleId == mid) = some mp0 ∧
          mp0.lecturesProgress.find? (fun l2 => l2.lectureId == lid) = some lp := by
        unfold findLP findMP at hlp
        cases hfm : p.modulesProgress.find? (fun mp => mp.moduleId == mid) with
        | none => rw [hfm] at hlp; simp at hlp
        | some mp0 =>
          rw [hfm] at hlp
          simp only [Option.some_bind] at hlp
          exact ⟨mp0, rfl, hlp⟩
      obtain ⟨q1, e1, eq1mps, eq1cnt⟩ := toggleLecture_eq_some course p mid lid now1 m lec hm hlec
      rw [e1] at h1
      obtain rfl := Option.some.inj h1
      obtain ⟨q2, e2, eq2mps, eq2cnt⟩ := toggleLecture_eq_some course q1 mid lid now2 m lec hm hlec
      rw [e2] at h2
      obtain rfl := Option.some.inj h2
      constructor
      · rw [eq2cnt, eq1mps, countCompletedMPs_toggle_toggle, ← completedLecturesOf_eq_count,
          ← hcount]
      · unfold findLP findMP
        rw [eq2mps, eq1mps, find?_toggleMPs, find?_toggleMPs, hfm]
        simp only [Option.getD_some, Option.some_bind]
        rw [updateModuleProgress_lps, updateModuleProgress_lps, find?_toggleLP,
          find?_toggleLP, hflp]
        simp only [Option.getD_some]
        refine ⟨_, rfl, ?_, ?_⟩
        · simp [flipLP, hnc]
        · simp [flipLP, hnc]

/-- C8: after a toggle the owning module-progress entry carries completed
equal to the conjunction of the completion flags of the lecture entries
present in it, and completedAt is now exactly when that conjunction holds. -/
theorem toggle_module_completion (course : Course) (p p1 : Progress) (mid lid now : Nat)
    (h1 : toggleLecture course p mid lid now = some p1) :
    ∃ mp1, findMP p1 mid = some mp1 ∧
      mp1.completed = mp1.lecturesProgress.all (fun lp => lp.completed) ∧
      mp1.completedAt =
        (if mp1.lecturesProgress.all (fun lp => lp.completed) then some now else none) := by
  cases hm : course.modules.find? (fun mo => mo.id == mid) with
  | none => simp [toggleLecture, hm] at h1
  | some m =>
    cases hlec : m.lectures.find? (fun l2 => l2.id == lid) with
    | none => simp [toggleLecture, hm, hlec] at h1
    | some lec =>
      obtain ⟨q1, e1, eq1mps, _⟩ := toggleLecture_eq_some course p mid lid now m lec hm hlec
      rw [e1] at h1
      obtain rfl := Option.some.inj h1
      unfold findMP
      rw [eq1mps, find?_toggleMPs]
      exact ⟨_, rfl, rfl, rfl⟩

/-- A concrete course: two modules with three lectures each. -/
def demoCourse : Course :=
  ⟨[⟨1, [⟨11⟩, ⟨12⟩, ⟨13⟩]⟩, ⟨2, [⟨21⟩, ⟨22⟩, ⟨23⟩]⟩]⟩

/-- The freshly seeded progress record for demoCourse. -/
def demoProgress : Progress := initializeProgress demoCourse 5 9

/-- demoProgress after toggling lecture 11 of module 1 at time 50. -/
def demoProgress1 : Progress :=
  (toggleLecture demoCourse demoProgress 1 11 50).getD demoProgress

/-- demoProgress1 after toggling the same lecture again at time 60. -/
def demoProgress2 : Progress :=
  (toggleLecture demoCourse demoProgress1 1 11 60).getD demoProgress1

/-- Witness for C2 at a concrete course and record. -/
theorem computeStats_percentage_rounded_witness :
    (calculateProgressStats demoCourse demoProgress 3).progressPercentage =
      ⌊(100 : ℚ) * (completedLecturesOf demoProgress : ℚ) / (totalLecturesOf demoCourse : ℚ)
        + 1 / 2⌋ :=
  (computeStats_percentage_rounded demoCourse demoProgress 3).2.2.2 (by decide)

/-- Witness for C7 at a concrete double toggle. -/
theorem toggle_twice_restores_witness :
    demoProgress2.completedLecturesCount = demoProgress.completedLecturesCount ∧
    ∃ lp2, findLP demoProgress2 1 11 = some lp2 ∧ lp2.completed = false ∧
      lp2.completedAt = none :=
  toggle_twice_restores demoCourse demoProgress demoProgress1 demoProgress2 1 11 50 60
    ⟨11, false, none⟩ rfl rfl (by decide) (by decide) (by decide)

/-- Witness for C8 at a concrete toggle. -/
theorem toggle_module_completion_witness :
    ∃ mp1, findMP demoProgress1 1 = some mp1 ∧
      mp1.completed = mp1.lecturesProgress.all (fun lp => lp.completed) ∧
      mp1.completedAt =
        (if mp1.lecturesProgress.all (fun lp => lp.completed) then some 50 else none) :=
  toggle_module_completion demoCourse demoProgress demoProgress1 1 11 50 rfl

/-! ## Validity of inputs and the percentage range -/

/-- The data-model invariant on courses: module ids unique within the course
and lecture ids unique within each module. -/
def validCourse (course : Course) : Prop :=
  (course.modules.map (fun m => m.id)).Nodup ∧
  ∀ m ∈ course.modules, (m.lectures.map (fun lec => lec.id)).Nodup

/-- A valid progress record for a course: module entries with distinct ids,
each mirroring a module of the course, and inside each entry distinct lecture
ids all belonging to that module. -/
def validProgress (course : Course) (p : Progress) : Prop :=
  (p.modulesProgress.map (fun mp => mp.moduleId)).Nodup ∧
  ∀ mp ∈ p.modulesProgress, ∃ m ∈ course.modules,
    mp.moduleId = m.id ∧
    (mp.lecturesProgress.map (fun lp => lp.lectureId)).Nodup ∧
    ∀ lp ∈ mp.lecturesProgress, lp.lectureId ∈ m.lectures.map (fun lec => lec.id)

lemma length_le_of_nodup_subset {l l2 : List Nat} (h : l.Nodup)
    (hs : ∀ a ∈ l, a ∈ l2) : l.length ≤ l2.length := by
  calc l.length = l.toFinset.card := (List.toFinset_card_of_nodup h).symm
    _ ≤ l2.toFinset.card := Finset.card_le_card (fun a ha => by
        rw [List.mem_toFinset] at ha ⊢
        exact hs a ha)
    _ ≤ l2.length := List.toFinset_card_le l2

lemma sum_lps_le (mps : List ModuleProgress) (modules : List CourseModule)
    (hmp : (mps.map (fun mp => mp.moduleId)).Nodup)
    (hmod : (modules.map (fun m => m.id)).Nodup)
    (h : ∀ mp ∈ mps, ∃ m ∈ modules, mp.moduleId = m.id ∧
         (mp.lecturesProgress.map (fun lp => lp.lectureId)).Nodup ∧
         ∀ lp ∈ mp.lecturesProgress, lp.lectureId ∈ m.lectures.map (fun lec => lec.id)) :
    countCompletedMPs mps ≤ (modules.map (fun m => m.lectures.length)).sum := by
  induction mps generalizing modules with
  | nil => simp [countCompletedMPs]
  | cons mp rest ih =>
    obtain ⟨m, hm_mem, hid, hnodup, hsub⟩ := h mp (List.mem_cons_self _ _)
    have hcount : countCompletedLP mp.lecturesProgress ≤ m.lectures.length := by
      have h1 : countCompletedLP mp.lecturesProgress ≤ mp.lecturesProgress.length :=
        List.length_filter_le _ _
      have h2 : mp.lecturesProgress.length ≤ m.lectures.length := by
        have h3 := length_le_of_nodup_subset hnodup (fun a ha => by
          obtain ⟨lp, hlp, rfl⟩ := List.mem_map.mp ha
          exact hsub lp hlp)
        simpa using h3
      exact le_trans h1 h2
    have hperm : (modules.map (fun m2 => m2.lectures.length)).Perm
        (m.lectures.length :: (modules.erase m).map (fun m2 => m2.lectures.length)) :=
      (List.perm_cons_erase hm_mem).map _
    rw [countCompletedMPs_cons, hperm.sum_eq, List.sum_cons]
    have hrest : countCompletedMPs rest
        ≤ ((modules.erase m).map (fun m2 => m2.lectures.length)).sum := by
      apply ih
      · exact (List.nodup_cons.mp hmp).2
      · exact hmod.sublist ((List.erase_sublist _ _).map _)
      · intro mp2 hmp2
        obtain ⟨m2, hm2_mem, hid2, hnodup2, hsub2⟩ := h mp2 (List.mem_cons_of_mem _ hmp2)
        refine ⟨m2, ?_, hid2, hnodup2, hsub2⟩
        have hne_id : mp2.moduleId ≠ mp.moduleId := by
          intro he
          apply (List.nodup_cons.mp hmp).1
          have hmem : mp2.moduleId ∈ rest.map (fun mp3 => mp3.moduleId) :=
            List.mem_map_of_mem _ hmp2
          rw [he] at hmem
          exact hmem
        have hne : m2 ≠ m := fun he2 => hne_id (by rw [hid2, he2, ← hid])
        exact (List.mem_erase_of_ne hne).mpr hm2_mem
    exact Nat.add_le_add hcount hrest

lemma completed_le_total (course : Course) (p : Progress)
    (hc : validCourse course) (hp : validProgress course p) :
    completedLecturesOf p ≤ totalLecturesOf course := by
  rw [completedLecturesOf_eq_count]
  exact sum_lps_le p.modulesProgress course.modules hp.1 hc.1 hp.2

lemma round_le_round {x y : ℚ} (h : x ≤ y) : round x ≤ round y := by
  rw [round_eq, round_eq]
  exact Int.floor_le_floor (by linarith)

/-- C5: on valid inputs the returned progressPercentage is an integer in the
range 0 to 100 and equals the rounded ratio. -/
theorem progressPercentage_in_range (course : Course) (p : Progress) (now : Nat)
    (hc : validCourse course) (hp : validProgress course p) :
    0 ≤ (calculateProgressStats course p now).progressPercentage ∧
    (calculateProgressStats course p now).progressPercentage ≤ 100 ∧
    (calculateProgressStats course p now).progressPercentage =
      round ((100 : ℚ) * (completedLecturesOf p : ℚ) / (totalLecturesOf course : ℚ)) := by
  have hle := completed_le_total course p hc hp
  rw [calculateProgressStats_eq]
  by_cases ht : totalLecturesOf course = 0
  · simp [ht]
  · have hpos : 0 < totalLecturesOf course := Nat.pos_of_ne_zero ht
    have htq : (0 : ℚ) < (totalLecturesOf course : ℚ) := by exact_mod_cast hpos
    have hleq : (completedLecturesOf p : ℚ) ≤ (totalLecturesOf course : ℚ) := by
      exact_mod_cast hle
    simp only [gt_iff_lt, hpos, if_pos]
    refine ⟨?_, ?_, ?_⟩
    · have h0 : (0 : ℚ) ≤ (completedLecturesOf p : ℚ) / (totalLecturesOf course : ℚ) * 100 := by
        positivity
      calc (0 : ℤ) = round (0 : ℚ) := by simp
        _ ≤ _ := round_le_round h0
    · have h1 : (completedLecturesOf p : ℚ) / (totalLecturesOf course : ℚ) * 100 ≤ 100 := by
        rw [div_mul_eq_mul_div, div_le_iff₀ htq]
        nlinarith
      calc round ((completedLecturesOf p : ℚ) / (totalLecturesOf course : ℚ) * 100)
          ≤ round ((100 : ℚ)) := round_le_round h1
        _ = 100 := by
            have hc100 : ((100 : ℤ) : ℚ) = (100 : ℚ) := by norm_num
            rw [← hc100, round_intCast]
    · congr 1
      ring

instance validCourseDecidable (course : Course) : Decidable (validCourse course) := by
  unfold validCourse
  infer_instance

instance validProgressDecidable (course : Course) (p : Progress) :
    Decidable (validProgress course p) := by
  unfold validProgress
  infer_instance

/-- Witness for C5 at a concrete valid course and record. -/
theorem progressPercentage_in_range_witness :
    0 ≤ (calculateProgressStats demoCourse demoProgress 4).progressPercentage ∧
    (calculateProgressStats demoCourse demoProgress 4).progressPercentage ≤ 100 ∧
    (calculateProgressStats demoCourse demoProgress 4).progressPercentage =
      round ((100 : ℚ) * (completedLecturesOf demoProgress : ℚ)
        / (totalLecturesOf demoCourse : ℚ)) :=
  progressPercentage_in_range demoCourse demoProgress 4 (by decide) (by decide)
